import Mathlib

/-!
Verification development for the AWS-BuildID-Auto-For-Ext extension.

The service worker (background orchestrator), the OIDC client helpers and the
utility library are shallowly embedded below.  Pure JS functions become Lean
functions; the async orchestration core becomes explicit state machines whose
actions correspond to the synchronous segments between suspension points of
the JS event loop; `Math.random()` draws become an environment stream
`rand : Nat → Nat` reduced modulo the requested bound; fallible steps are
threaded through `Except`/`Option`.
-/

namespace AWSBuild

/-! ### src/lib/utils.js: generatePassword -/

def lowercaseChars : List Char := "abcdefghijklmnopqrstuvwxyz".data

def uppercaseChars : List Char := "ABCDEFGHIJKLMNOPQRSTUVWXYZ".data

def digitChars : List Char := "0123456789".data

def specialChars : List Char := "!@#$%^&*".data

/-- The pool `allChars = lowercase + uppercase + digits + special` of generatePassword. -/
def allChars : List Char := lowercaseChars ++ uppercaseChars ++ digitChars ++ specialChars

/-- One evaluation of `Math.floor(Math.random() * n)`: an arbitrary value in
`[0, n)`, modelled by the `k`-th value of the ambient random stream reduced
modulo `n` (every value below `n` is realisable, none above). -/
def draw (rand : Nat → Nat) (k n : Nat) : Nat := rand k % n

/-- The swap `[password[i], password[j]] = [password[j], password[i]]` on a list. -/
def listSwap (l : List Char) (i j : Nat) : List Char :=
  if i < l.length ∧ j < l.length then
    (l.set i (l.getD j 'a')).set j (l.getD i 'a')
  else l

/-- The Fisher-Yates loop `for (i = len-1; i > 0; i--)` of generatePassword;
the argument `i` is the current loop counter, `base` offsets the random
stream past the draws already consumed by the character picks. -/
def fyShuffle (rand : Nat → Nat) (base : Nat) : Nat → List Char → List Char
  | 0, l => l
  | i + 1, l => fyShuffle rand base i (listSwap l (i + 1) (draw rand (base + i) (i + 2)))

/-- The fill loop `for (i = 4; i < length; i++) password.push(allChars[...])`. -/
def passwordFill (rand : Nat → Nat) (len : Nat) : List Char :=
  ((List.range len).drop 4).map (fun i => allChars.getD (draw rand i allChars.length) 'a')

/-- The password array before the shuffle: one character of each class
followed by the fill loop. -/
def passwordSeed (len : Nat) (rand : Nat → Nat) : List Char :=
  [lowercaseChars.getD (draw rand 0 lowercaseChars.length) 'a',
   uppercaseChars.getD (draw rand 1 uppercaseChars.length) 'a',
   digitChars.getD (draw rand 2 digitChars.length) 'a',
   specialChars.getD (draw rand 3 specialChars.length) 'a'] ++ passwordFill rand len

/-- src/lib/utils.js generatePassword: one char from each class, fill to
`length`, then a Fisher-Yates shuffle; returns the joined character list. -/
def generatePassword (len : Nat) (rand : Nat → Nat) : List Char :=
  fyShuffle rand (passwordSeed len rand).length
    ((passwordSeed len rand).length - 1) (passwordSeed len rand)

/-! ### src/unnamed/part_000: saveToHistory (history store) -/

/-- Credential bundle returned by the token endpoint. -/
structure TokenBundle where
  accessToken : String
  refreshToken : String
  expiresIn : Nat
  tokenType : String
  deriving Repr, DecidableEq

/-- Token data stored on a history record (bundle plus client pair). -/
structure StoredToken where
  accessToken : String
  refreshToken : String
  clientId : String
  clientSecret : String
  deriving Repr, DecidableEq

/-- A registration history record (the object literal built in saveToHistory). -/
structure HistRecord where
  id : Nat
  time : String
  email : Option String
  password : Option String
  firstName : Option String
  lastName : Option String
  success : Bool
  error : Option String
  token : Option StoredToken
  tokenStatus : Option String
  deriving Repr, DecidableEq

/-- saveToHistory: `registrationHistory.unshift(record)` then
`if (length > 100) slice(0, 100)`. -/
def saveToHistory (hist : List HistRecord) (record : HistRecord) : List HistRecord :=
  let h := record :: hist
  if 100 < h.length then h.take 100 else h

/-! ### src/lib/oidc-api.js: validateToken (classifier) -/

/-- Validation status assigned by validateToken. -/
inductive TStatus where
  | valid | expired | suspended | invalid | error
  deriving Repr, DecidableEq

/-- The substring tests validateToken applies to the probe response body:
each field is `text.includes(...)` for the corresponding marker. -/
structure BodyMarks where
  tempSuspended : Bool      -- text.includes TEMPORARILY_SUSPENDED
  expiredToken : Bool       -- text.includes ExpiredToken
  expiredWord : Bool        -- text.includes expired
  unauthorizedExc : Bool    -- text.includes UnauthorizedException
  accessDeniedExc : Bool    -- text.includes AccessDeniedException
  validationExc : Bool      -- text.includes ValidationException
  notFoundExc : Bool        -- text.includes ResourceNotFoundException
  deriving Repr, DecidableEq

/-- A completed probe of the usage endpoint: HTTP status plus body markers. -/
structure ProbeResp where
  status : Nat
  marks : BodyMarks
  deriving Repr, DecidableEq

/-- Predicate `Response.ok` of the fetch API: status in the range 200-299. -/
def respOk (status : Nat) : Bool := 200 ≤ status && status < 300

/-- src/lib/oidc-api.js validateToken classification; `none` is the catch
branch (the fetch threw, a network failure). -/
def validateToken : Option ProbeResp → TStatus
  | none => .error
  | some r =>
    if r.marks.tempSuspended then .suspended
    else if r.status = 401 || r.marks.expiredToken || r.marks.expiredWord
            || r.marks.unauthorizedExc then .expired
    else if r.marks.accessDeniedExc || r.marks.validationExc || r.marks.notFoundExc then
      .invalid
    else if respOk r.status then .valid
    else if r.status = 403 then .invalid
    else if 500 ≤ r.status then .error
    else .invalid

/-- Classifier written after the spec sentence (precedence: suspension;
401/expiry; denied/validation/not-found; HTTP at least 500 or network
failure; HTTP success; otherwise invalid), for comparison with
`validateToken`. -/
def specClassifyProbe : Option ProbeResp → TStatus
  | none => .error
  | some r =>
    if r.marks.tempSuspended then .suspended
    else if r.status = 401 || r.marks.expiredToken || r.marks.expiredWord
            || r.marks.unauthorizedExc then .expired
    else if r.marks.accessDeniedExc || r.marks.validationExc || r.marks.notFoundExc then
      .invalid
    else if 500 ≤ r.status then .error
    else if respOk r.status then .valid
    else .invalid

/-! ### src/unnamed/part_000: pollSessionToken -/

/-- Observable outcome of one `oidcClient.getToken()` attempt: a credential
bundle, `null` (the authorization_pending condition), or a thrown error. -/
inductive FetchResult where
  | bundle (t : TokenBundle)
  | pendingNull
  | thrown (msg : String)
  deriving Repr, DecidableEq

/-- The sleep `Math.max(session.oidcClient.interval * 1000, 2000)` (interval in s). -/
def pollIntervalOf (interval : Nat) : Nat := max (interval * 1000) 2000

/-- The 10-minute overall timeout of pollSessionToken, in ms. -/
def pollTimeoutMs : Nat := 600000

/-- The while loop of pollSessionToken.  `abort k`/`stop k` are the values of
`session.pollAbort`/`shouldStop` at the k-th condition check, `fetch k` the
k-th getToken outcome, `dur k` the wall time the k-th fetch consumed, and
`elapsed` the value of `Date.now() - startTime` at the current check.  A
pending null and a thrown error both fall through to the sleep and loop. -/
def pollLoop (interval : Nat) (abort stop : Nat → Bool) (fetch : Nat → FetchResult)
    (dur : Nat → Nat) (k : Nat) (elapsed : Nat) : Option TokenBundle :=
  if h : abort k = true ∨ stop k = true ∨ pollTimeoutMs ≤ elapsed then none
  else
    match fetch k with
    | .bundle t => some t
    | .pendingNull => pollLoop interval abort stop fetch dur (k + 1)
        (elapsed + dur k + pollIntervalOf interval)
    | .thrown _ => pollLoop interval abort stop fetch dur (k + 1)
        (elapsed + dur k + pollIntervalOf interval)
  termination_by pollTimeoutMs - elapsed
  decreasing_by
  all_goals push_neg at h
  all_goals simp only [pollIntervalOf, pollTimeoutMs] at *
  all_goals omega

/-- pollSessionToken: null when the session has no oidcClient, else the
bounded polling loop starting at elapsed time 0. -/
def pollSessionToken (hasClient : Bool) (interval : Nat) (abort stop : Nat → Bool)
    (fetch : Nat → FetchResult) (dur : Nat → Nat) : Option TokenBundle :=
  if hasClient then pollLoop interval abort stop fetch dur 0 0 else none

/-- Value of `Date.now() - startTime` at the start of the k-th loop iteration:
each earlier iteration consumed its fetch duration plus the poll interval. -/
def elapsedAt (interval : Nat) (dur : Nat → Nat) : Nat → Nat
  | 0 => 0
  | k + 1 => elapsedAt interval dur k + dur k + pollIntervalOf interval

/-- Whether a getToken outcome is a credential bundle. -/
def FetchResult.isBundle : FetchResult → Bool
  | .bundle _ => true
  | _ => false

/-- The credential bundle carried by a getToken outcome, if any. -/
def FetchResult.bundleOf : FetchResult → Option TokenBundle
  | .bundle t => some t
  | _ => none

/-- The k-th iteration of the polling loop terminates it: cancellation, stop,
timeout, or a successful fetch. -/
def exitsAt (interval : Nat) (abort stop : Nat → Bool) (fetch : Nat → FetchResult)
    (dur : Nat → Nat) (k : Nat) : Prop :=
  abort k = true ∨ stop k = true ∨ pollTimeoutMs ≤ elapsedAt interval dur k ∨
    (fetch k).isBundle = true

/-! ### src/unnamed/part_000: validateAllTokens (batch validator) -/

/-- Result of one refreshAndValidateToken call for a record: the classifier
status plus the new token pair when the refresh succeeded (the catch branch
of the per-record callback maps a thrown error to status error). -/
structure VResult where
  status : TStatus
  newAccessToken : Option String
  newRefreshToken : Option String
  errMsg : Option String
  deriving Repr, DecidableEq

/-- One entry of `results.details` ({email, status, error}). -/
structure VDetail where
  email : Option String
  status : TStatus
  error : Option String
  deriving Repr, DecidableEq

/-- The aggregate `results` object plus the externally observable outputs of
validateAllTokens: the VALIDATION_PROGRESS events in emission order, the
batch sizes in processing order, the number of inter-batch 1000ms delays, and
the updated (token-rotated, tokenStatus-mutated) eligible records. -/
structure VAOut where
  total : Nat
  valid : Nat
  expired : Nat
  suspended : Nat
  invalid : Nat
  error : Nat
  details : List VDetail
  progress : List (Nat × Nat)
  batchSizes : List Nat
  delays : Nat
  updatedRecords : List HistRecord
  deriving Repr, DecidableEq

/-- Filter `registrationHistory.filter(r => r.success && r.token?.refreshToken)`:
success flag set and a non-empty (truthy) refresh credential present. -/
def eligibleRecord (r : HistRecord) : Bool :=
  r.success && (match r.token with
    | some t => t.refreshToken != ""
    | none => false)

/-- tokenStatus string written back onto the record for a classifier status. -/
def TStatus.toStatusString : TStatus → String
  | .valid => "valid"
  | .expired => "expired"
  | .suspended => "suspended"
  | .invalid => "invalid"
  | .error => "error"

/-- Per-record body of the batch callback: set `record.tokenStatus`, and on a
successful refresh replace the stored access/refresh pair. -/
def applyVResult (r : HistRecord) (v : VResult) : HistRecord :=
  let r := { r with tokenStatus := some v.status.toStatusString }
  match v.newAccessToken, v.newRefreshToken, r.token with
  | some na, nr, some t =>
      { r with token := some { t with accessToken := na, refreshToken := nr.getD "" } }
  | _, _, _ => r

/-- Add one classified record to the aggregate counters and detail list
(the switch over result.status; valid records produce no detail entry). -/
def tallyVResult (acc : VAOut) (email : Option String) (v : VResult) : VAOut :=
  match v.status with
  | .valid => { acc with valid := acc.valid + 1 }
  | .suspended =>
    { acc with
      suspended := acc.suspended + 1
      details := acc.details ++ [⟨email, .suspended, v.errMsg⟩] }
  | .expired =>
    { acc with
      expired := acc.expired + 1
      details := acc.details ++ [⟨email, .expired, v.errMsg⟩] }
  | .invalid =>
    { acc with
      invalid := acc.invalid + 1
      details := acc.details ++ [⟨email, .invalid, v.errMsg⟩] }
  | .error =>
    { acc with
      error := acc.error + 1
      details := acc.details ++ [⟨email, .error, v.errMsg⟩] }

/-- Fold one batch: count every settled result and collect details. -/
def tallyBatch (oracle : Nat → VResult) (idx : Nat) (batch : List HistRecord)
    (acc : VAOut) : VAOut :=
  match batch with
  | [] => acc
  | r :: rest => tallyBatch oracle (idx + 1) rest (tallyVResult acc r.email (oracle idx))

/-- The updated records of one batch (token rotation and tokenStatus). -/
def updateBatch (oracle : Nat → VResult) (idx : Nat) (batch : List HistRecord) :
    List HistRecord :=
  match batch with
  | [] => []
  | r :: rest => applyVResult r (oracle idx) :: updateBatch oracle (idx + 1) rest

/-- The zero-initialised `results` object of validateAllTokens. -/
def emptyVAOut (total : Nat) : VAOut :=
  { total := total, valid := 0, expired := 0, suspended := 0, invalid := 0,
    error := 0, details := [], progress := [], batchSizes := [], delays := 0,
    updatedRecords := [] }

/-- The `for (let i = 0; i < recordsToValidate.length; i += 5)` loop of
validateAllTokens: process `slice(i, i+5)` concurrently, append one progress
event `(validated, total)` after the batch, and sleep 1000ms before the next
batch when `i + 5 < recordsToValidate.length`.  `fuel` bounds the recursion
by the number of remaining records (each round consumes at least one). -/
def vaBatchLoop (oracle : Nat → VResult) (total : Nat) :
    Nat → Nat → Nat → List HistRecord → VAOut
  | _, _, _, [] => emptyVAOut total
  | 0, _, _, _ :: _ => emptyVAOut total
  | fuel + 1, idx, validated, r :: rs =>
    let batch := (r :: rs).take 5
    let rest := (r :: rs).drop 5
    let validatedNow := validated + batch.length
    let bacc := tallyBatch oracle idx batch (emptyVAOut total)
    let tail := vaBatchLoop oracle total fuel (idx + batch.length) validatedNow rest
    { total := total,
      valid := bacc.valid + tail.valid,
      expired := bacc.expired + tail.expired,
      suspended := bacc.suspended + tail.suspended,
      invalid := bacc.invalid + tail.invalid,
      error := bacc.error + tail.error,
      details := bacc.details ++ tail.details,
      progress := (validatedNow, total) :: tail.progress,
      batchSizes := batch.length :: tail.batchSizes,
      delays := (if rest.isEmpty then 0 else 1) + tail.delays,
      updatedRecords := updateBatch oracle idx batch ++ tail.updatedRecords }

/-- validateAllTokens: filter the eligible history records, return
immediately when none, else emit the initial `(0, total)` progress event and
run the batch loop.  `oracle i` is the refreshAndValidateToken outcome of the
i-th eligible record. -/
def validateAllTokens (history : List HistRecord) (oracle : Nat → VResult) : VAOut :=
  let recordsToValidate := history.filter eligibleRecord
  let total := recordsToValidate.length
  if total = 0 then emptyVAOut 0
  else
    let out := vaBatchLoop oracle total recordsToValidate.length 0 0 recordsToValidate
    { out with progress := (0, total) :: out.progress }

/-- The value `ceil(N/5)`, the batch count the spec promises. -/
def ceilDiv5 (n : Nat) : Nat := (n + 4) / 5

/-- The batch sizes the spec describes: full batches of 5, the last one of
size `n mod 5` when that is non-zero. -/
def chunkSizes5 : Nat → List Nat
  | 0 => []
  | n + 1 => if n + 1 ≤ 5 then [n + 1] else 5 :: chunkSizes5 (n + 1 - 5)

/-! ### src/unnamed/part_000: createSession / runSessionRegistration -/

/-- Session status values. -/
inductive SessStatus where
  | pending | running | pollingToken | completed | sessError
  deriving Repr, DecidableEq

/-- The OIDC authorization info returned by quickAuth. -/
structure AuthInfo where
  clientId : String
  clientSecret : String
  deviceCode : String
  userCode : String
  verificationUri : String
  verificationUriComplete : String
  expiresIn : Nat
  interval : Nat
  deriving Repr, DecidableEq

/-- A session object as built by createSession (the mail client is reduced to
its base-address configuration; window/tab ids are Chrome identifiers). -/
structure Session where
  id : Nat
  status : SessStatus
  step : String
  error : Option String
  email : Option String
  password : Option String
  firstName : Option String
  lastName : Option String
  mailClient : Option String
  hasOidcClient : Bool
  oidcAuth : Option AuthInfo
  windowId : Option Nat
  tabId : Option Nat
  token : Option TokenBundle
  pollAbort : Bool
  startTime : Nat
  verificationCode : Option String
  deriving Repr, DecidableEq

/-- createSession (without the side effect of registering in the map). -/
def createSession (sid : Nat) (now : Nat) : Session :=
  { id := sid, status := .pending, step := "等待中...", error := none,
    email := none, password := none, firstName := none, lastName := none,
    mailClient := none, hasOidcClient := false, oidcAuth := none,
    windowId := none, tabId := none, token := none, pollAbort := false,
    startTime := now, verificationCode := none }

/-- Test `haystack.includes(needle)` on character lists. -/
def listContains (haystack needle : List Char) : Bool :=
  (List.range (haystack.length + 1)).any (fun i => needle.isPrefixOf (haystack.drop i))

/-- Method `String.prototype.includes`. -/
def strIncludes (haystack needle : String) : Bool :=
  listContains haystack.data needle.data

/-- The result of `chrome.windows.create` when it does not throw: possibly
null, with an optional id and a list of tab ids. -/
structure WindowObj where
  id : Option Nat
  tabs : List Nat
  deriving Repr, DecidableEq

/-- Externally observable effects of one runSessionRegistration run. -/
inductive RegEff where
  | apiLockAcquire
  | apiLockRelease
  | winLockAcquire
  | winLockRelease
  | windowCloseRequest (windowId : Nat)
  | historyAppend (success : Bool)
  | registeredIncr
  | failedIncr
  deriving Repr, DecidableEq

/-- Environment of one registration pipeline run: identity generation output,
global configuration and the outcome of every external step. -/
structure RegEnv where
  firstName : String
  lastName : String
  password : String
  gmailBaseAddress : String
  createInbox : Except String String
  quickAuth : Except String AuthInfo
  windowCreate : Except String (Option WindowObj)
  tabLoad : Except String Unit
  pollResult : Option TokenBundle
  windowRemoveOk : Bool

/-- The error-message refinement of the window-creation catch block. -/
def windowErrorMessage (msg : String) : String :=
  if strIncludes msg "cannot be created" then
    "无法创建无痕窗口，请在扩展设置中启用在无痕模式下允许"
  else if strIncludes msg "null/undefined" || strIncludes msg "缺少权限" then
    "创建窗口失败：请检查扩展权限，重新加载扩展后重试"
  else if msg ≠ "" then msg
  else "创建无痕窗口失败"

/-- Step 4 of the pipeline: the window-creation critical section, from lock
acquisition to the guaranteed lock release.  Returns the session after the
section together with its effects and either unit or the thrown message. -/
def windowStep (env : RegEnv) (s : Session) :
    Session × List RegEff × Except String Unit :=
  match env.windowCreate with
  | .error e =>
    (s, [.winLockAcquire, .winLockRelease], .error (windowErrorMessage e))
  | .ok none =>
    (s, [.winLockAcquire, .winLockRelease],
     .error (windowErrorMessage "chrome.windows.create 返回 null/undefined，可能缺少权限或无痕模式未启用"))
  | .ok (some w) =>
    match w.id with
    | none =>
      (s, [.winLockAcquire, .winLockRelease],
       .error (windowErrorMessage "窗口对象缺少 id 属性"))
    | some wid =>
      match w.tabs with
      | [] =>
        (s, [.winLockAcquire, .winLockRelease],
         .error (windowErrorMessage "窗口缺少标签页"))
      | t0 :: _ =>
        -- the waitForTabLoad timeout is caught and is non-fatal
        ({ s with windowId := some wid, tabId := some t0,
                  step := "等待页面加载..." },
         [.winLockAcquire, .winLockRelease], .ok ())

/-- The try block of runSessionRegistration: every `.error` is a throw that
the surrounding catch receives, carrying the session state and the effects
accumulated up to the throw point. -/
def regTryBlock (env : RegEnv) (s0 : Session) :
    Except (String × Session × List RegEff) (Session × List RegEff) :=
  let s := { s0 with status := .running, pollAbort := false, step := "初始化..." }
  -- step 1: identity generation (pure, cannot fail)
  let s := { s with firstName := some env.firstName, lastName := some env.lastName,
                    password := some env.password, step := "生成账号信息..." }
  -- step 2: Gmail alias inbox
  if env.gmailBaseAddress = "" then
    .error ("未配置 Gmail 地址，请在插件设置中配置", s, [])
  else
    let s := { s with mailClient := some env.gmailBaseAddress }
    match env.createInbox with
    | .error e => .error (e, s, [])
    | .ok email =>
    let s := { s with email := some email, step := "获取授权链接..." }
    -- step 3: quickAuth under the API lock (released in its finally block)
    let s := { s with hasOidcClient := true }
    match env.quickAuth with
    | .error e => .error (e, s, [.apiLockAcquire, .apiLockRelease])
    | .ok auth =>
    let s := { s with oidcAuth := some auth, step := "打开无痕窗口..." }
    -- step 4: incognito window under the window-creation lock
    match windowStep env s with
    | (s, effs, .error e) => .error (e, s, [.apiLockAcquire, .apiLockRelease] ++ effs)
    | (s, effs, .ok ()) =>
    let effs := [.apiLockAcquire, .apiLockRelease] ++ effs
    -- step 5: token polling
    let s := { s with status := .pollingToken, step := "自动填表中..." }
    match env.pollResult with
    | some tok =>
      (.ok ({ s with status := .completed, token := some tok, step := "注册成功!" },
            effs ++ [.historyAppend true, .registeredIncr]))
    | none => .error ("Token 获取超时或被中断", s, effs)

/-- The finally block: close the window when one is recorded (the id is
cleared only when `chrome.windows.remove` did not throw) and drop the mail
client reference. -/
def regFinally (env : RegEnv) (s : Session) (effs : List RegEff) :
    Session × List RegEff :=
  let (s, effs) :=
    match s.windowId with
    | some wid =>
      (if env.windowRemoveOk then { s with windowId := none } else s,
       effs ++ [RegEff.windowCloseRequest wid])
    | none => (s, effs)
  ({ s with mailClient := none }, effs)

/-- runSessionRegistration: try body, catch (session to error state, failure
history record, totalFailed increment, resolve false) and finally; the
function always resolves to a boolean. -/
def runSessionRegistration (env : RegEnv) (s0 : Session) :
    Bool × Session × List RegEff :=
  match regTryBlock env s0 with
  | .ok (s, effs) =>
    let (s, effs) := regFinally env s effs
    (true, s, effs)
  | .error (msg, s, effs) =>
    let s := { s with status := .sessError, error := some msg,
                      step := "失败: " ++ msg }
    let effs := effs ++ [.historyAppend false, .failedIncr]
    let (s, effs) := regFinally env s effs
    (false, s, effs)

/-- The window id the pipeline records for a run, as a function of the
environment: some id exactly when all steps up to window creation succeed
and the created window exposes an id and at least one tab. -/
def createdWindowId (env : RegEnv) : Option Nat :=
  if env.gmailBaseAddress = "" then none
  else
    match env.createInbox, env.quickAuth, env.windowCreate with
    | .ok _, .ok _, .ok (some w) =>
      match w.id, w.tabs with
      | some wid, _ :: _ => some wid
      | _, _ => none
    | _, _, _ => none

/-! ### src/unnamed/part_000: batch orchestration
(startBatchRegistration / runWorker / stopRegistration)

The service worker runs on a single thread; "concurrent" workers interleave
only at await points.  Every synchronous segment between two suspension
points becomes one action of the machine below; a schedule is a list of
actions, and `runBatch` executes it (None when an action is not enabled in
the current state). -/

/-- globalState.status. -/
inductive GStatus where
  | idle | running | completed | gsError
  deriving Repr, DecidableEq

/-- The registry entry of one session, as far as the batch controller
observes it: terminal means status completed or error. -/
structure SessEntry where
  sid : Nat
  terminal : Bool
  pollAbort : Bool
  deriving Repr, DecidableEq

/-- Where a worker stands in the runWorker loop: staggered start sleep, at
the loop condition, running one registration, in the 2000ms inter-task
sleep, or terminated. -/
inductive WPhase where
  | stagger
  | loopTop
  | working (sid : Nat)
  | delay
  | done
  deriving Repr, DecidableEq

/-- The module-level mutable state of the service worker that the batch
controller touches. -/
structure BState where
  taskQueue : List Nat
  shouldStop : Bool
  isRunning : Bool
  status : GStatus
  totalTarget : Nat
  totalRegistered : Nat
  totalFailed : Nat
  workers : List WPhase
  sessions : List SessEntry
  nextSid : Nat
  deriving Repr, DecidableEq

/-- One scheduler action: a worker waking from a sleep, popping a task
(including the housekeeping prune and the synchronous prefix of
runSessionRegistration), leaving the loop, finishing a registration with a
boolean outcome, a STOP_REGISTRATION message, or the resolution of
`Promise.all(workers)`. -/
inductive BAct where
  | wake (w : Nat)
  | popTask (w : Nat)
  | exitLoop (w : Nat)
  | finishTask (w : Nat) (ok : Bool)
  | stop
  | complete
  deriving Repr, DecidableEq

/-- Apply one action if it is enabled. -/
def applyBAct (s : BState) : BAct → Option BState
  | .wake w =>
    match s.workers[w]? with
    | some .stagger => some { s with workers := s.workers.set w .loopTop }
    | some .delay => some { s with workers := s.workers.set w .loopTop }
    | _ => none
  | .popTask w =>
    match s.workers[w]? with
    | some .loopTop =>
      if s.shouldStop then none
      else
        match s.taskQueue with
        | [] => none
        | _ :: rest =>
          -- atomic segment: loop check, taskQueue.shift(), prune of terminal
          -- sessions, createSession, and the synchronous prefix of
          -- runSessionRegistration (which resets pollAbort to false)
          some { s with
            taskQueue := rest
            sessions := s.sessions.filter (fun e => !e.terminal)
              ++ [⟨s.nextSid, false, false⟩]
            nextSid := s.nextSid + 1
            workers := s.workers.set w (.working s.nextSid) }
    | _ => none
  | .exitLoop w =>
    match s.workers[w]? with
    | some .loopTop =>
      if s.shouldStop || s.taskQueue.isEmpty then
        some { s with workers := s.workers.set w .done }
      else none
    | _ => none
  | .finishTask w ok =>
    match s.workers[w]? with
    | some (.working sid) =>
      -- tail of runSessionRegistration: session turns terminal and exactly
      -- one of the two counters is incremented
      some { s with
        totalRegistered := if ok then s.totalRegistered + 1 else s.totalRegistered
        totalFailed := if ok then s.totalFailed else s.totalFailed + 1
        sessions := s.sessions.map
          (fun e => if e.sid = sid then { e with terminal := true } else e)
        workers := s.workers.set w .delay }
    | _ => none
  | .stop =>
    -- stopRegistration: synchronous, always enabled
    some { s with
      shouldStop := true
      taskQueue := []
      sessions := s.sessions.map (fun e => { e with pollAbort := true }) }
  | .complete =>
    -- startBatchRegistration resumes after Promise.all(workers)
    if s.isRunning ∧ s.workers.all (fun w => w = .done) then
      some { s with
        isRunning := false
        status := if s.shouldStop then .idle else .completed }
    else none

/-- Run a schedule. -/
def runBatch (s : BState) : List BAct → Option BState
  | [] => some s
  | a :: acts =>
    match applyBAct s a with
    | none => none
    | some next => runBatch next acts

/-- The state right after startBatchRegistration accepted a request for
`loopCount` tasks at `concurrency` workers: counters reset, queue filled
with the task indices, sessions cleared, workers spawned (worker 0 enters
its loop at once, later workers sleep `workerId * 3000` ms first). -/
def initBatch (loopCount concurrency : Nat) : BState :=
  { taskQueue := List.range loopCount
    shouldStop := false
    isRunning := true
    status := .running
    totalTarget := loopCount
    totalRegistered := 0
    totalFailed := 0
    workers := (List.range concurrency).map
      (fun i => if i = 0 then WPhase.loopTop else WPhase.stagger)
    sessions := []
    nextSid := 0 }

/-- a worker phase counts as working -/
def isWorkingPhase (w : WPhase) : Bool :=
  match w with | .working _ => true | _ => false

/-- How many workers currently hold a popped task. -/
def workingCount (ws : List WPhase) : Nat :=
  ws.countP (fun w => match w with | .working _ => true | _ => false)

/-! ### src/unnamed/part_000: startBatchRegistration entry checks -/

/-- The whole module-level mutable state the start entry point can touch. -/
structure SWState where
  gmailBaseAddress : String
  batch : BState
  deriving Repr, DecidableEq

/-- Outcome object of startBatchRegistration. -/
structure StartResult where
  success : Bool
  error : Option String
  deriving Repr, DecidableEq

/-- The synchronous entry of startBatchRegistration: reject while a batch is
running, reject when no Gmail base address was supplied, otherwise install
the accepted batch state.  Returns the result object with the state it
leaves behind. -/
def startBatchRegistration (st : SWState) (loopCount concurrency : Nat)
    (gmailAddress : String) : StartResult × SWState :=
  if st.batch.isRunning then
    ({ success := false, error := some "已有注册任务在运行" }, st)
  else if gmailAddress = "" then
    ({ success := false, error := some "未配置 Gmail 地址" }, st)
  else
    ({ success := true, error := none },
     { gmailBaseAddress := gmailAddress, batch := initBatch loopCount concurrency })

/-! ### src/unnamed/part_000: the promise-chained locks (withApiLock and the
window-creation section)

`await apiCallLock; apiCallLock = new Promise(r => releaseLock = r)` reads
the current promise, suspends on it, and only after being resumed installs
a fresh promise.  Promises are numbered; a resolved promise resumes every
task suspended on it.  The machine below is that semantics verbatim. -/

/-- Program point of one task inside withApiLock. -/
inductive LPhase where
  | atEntry
  | waitingOn (p : Nat)
  | inCrit (p : Nat)
  | cooling (p : Nat)
  | finished
  deriving Repr, DecidableEq

/-- State of the lock idiom: the promise currently stored in the lock
variable, which promises are resolved, a fresh-promise counter and the
tasks. -/
structure LState where
  lockVar : Nat
  resolved : List Nat
  nextP : Nat
  tasks : List LPhase
  deriving Repr, DecidableEq

/-- Scheduler actions on the lock machine. -/
inductive LAct where
  | enter (t : Nat)
  | resume (t : Nat)
  | enterCooldown (t : Nat)
  | release (t : Nat)
  deriving Repr, DecidableEq

/-- Apply one action if enabled: `enter` evaluates `await apiCallLock`
(records the promise currently in the variable and suspends on it);
`resume` runs the continuation of a task whose awaited promise is resolved
(install a fresh pending promise in the variable, start the guarded call);
`enterCooldown` moves a finished guarded call into the 500ms sleep of the
finally block; `release` resolves the promise that task had installed. -/
def applyLAct (s : LState) : LAct → Option LState
  | .enter t =>
    match s.tasks[t]? with
    | some .atEntry =>
      some { s with tasks := s.tasks.set t (.waitingOn s.lockVar) }
    | _ => none
  | .resume t =>
    match s.tasks[t]? with
    | some (.waitingOn p) =>
      if p ∈ s.resolved then
        some { s with
          lockVar := s.nextP
          nextP := s.nextP + 1
          tasks := s.tasks.set t (.inCrit s.nextP) }
      else none
    | _ => none
  | .enterCooldown t =>
    match s.tasks[t]? with
    | some (.inCrit p) => some { s with tasks := s.tasks.set t (.cooling p) }
    | _ => none
  | .release t =>
    match s.tasks[t]? with
    | some (.cooling p) =>
      some { s with resolved := p :: s.resolved, tasks := s.tasks.set t .finished }
    | _ => none

/-- Run a schedule on the lock machine. -/
def runLock (s : LState) : List LAct → Option LState
  | [] => some s
  | a :: acts =>
    match applyLAct s a with
    | none => none
    | some next => runLock next acts

/-- Initial lock state: `apiCallLock = Promise.resolve()` (promise 0,
already resolved) and `n` sessions about to call withApiLock. -/
def initLock (n : Nat) : LState :=
  { lockVar := 0, resolved := [0], nextP := 1, tasks := List.replicate n .atEntry }

/-- Number of tasks currently inside the guarded critical section. -/
def inCritCount (s : LState) : Nat :=
  s.tasks.countP (fun t => match t with | .inCrit _ => true | _ => false)

/-- The concrete interleaving that breaks mutual exclusion: session 0
acquires the lock; sessions 1 and 2 both reach `await apiCallLock` while 0
holds it, so both suspend on the same promise; when 0 releases, both are
resumed and both enter the guarded section. -/
def lockBreakTrace : List LAct :=
  [.enter 0, .resume 0, .enter 1, .enter 2, .enterCooldown 0, .release 0,
   .resume 1, .resume 2]

/-! ### Invariants of the orchestration machine -/

/-- Invariant of a batch run that has seen no stop request: every task is
accounted for exactly once, either still queued, currently held by a
worker, or already tallied into one of the two counters; moreover while
tasks remain some worker is still alive. -/
def BInv (T : Nat) (s : BState) : Prop :=
  s.shouldStop = false ∧ s.isRunning = true ∧ s.totalTarget = T ∧
  s.totalRegistered + s.totalFailed + s.taskQueue.length + workingCount s.workers = T ∧
  (s.taskQueue ≠ [] → ∃ w ∈ s.workers, w ≠ WPhase.done)

/-- A resolved batch that saw no stop request: all workers terminated, all
tasks tallied, status completed. -/
def BFinal (T : Nat) (s : BState) : Prop :=
  s.isRunning = false ∧ s.totalRegistered + s.totalFailed = T ∧
  s.status = GStatus.completed ∧ ∀ w ∈ s.workers, w = WPhase.done

/-- Invariant holding from a stop request onwards: the stop flag stays set,
and once the batch resolves its status is idle. -/
def SInv (s : BState) : Prop :=
  s.shouldStop = true ∧ (s.isRunning = false → s.status = GStatus.idle)

/-- The pipeline resolves true exactly when a valid window was created and
the token poll returned a bundle (window validity already entails the
earlier mail and authorization steps succeeded). -/
def pipelineSucceeds (env : RegEnv) : Bool :=
  (createdWindowId env).isSome && env.pollResult.isSome

/-! ### Concrete sample data used to instantiate theorems -/

/-- A successful history record holding a refreshable stored token. -/
def demoRecord : HistRecord :=
  { id := 1, time := "2025-01-01", email := some "a@b.c", password := some "pw",
    firstName := some "Jo", lastName := some "Doe", success := true,
    error := none,
    token := some { accessToken := "at", refreshToken := "rt",
                    clientId := "ci", clientSecret := "cs" },
    tokenStatus := some "unknown" }

/-- A refresh-and-validate outcome used to drive the batch validator. -/
def demoVResult : VResult :=
  { status := .valid, newAccessToken := some "at2",
    newRefreshToken := some "rt2", errMsg := none }

/-- A registration environment in which every external step succeeds. -/
def demoRegEnv : RegEnv :=
  { firstName := "Jo", lastName := "Doe", password := "Pw1!aaaaaaaa",
    gmailBaseAddress := "base@gmail.com",
    createInbox := .ok "base+jodoe@gmail.com",
    quickAuth := .ok { clientId := "c", clientSecret := "s", deviceCode := "d",
                       userCode := "u", verificationUri := "v",
                       verificationUriComplete := "vc", expiresIn := 600,
                       interval := 1 },
    windowCreate := .ok (some { id := some 7, tabs := [70] }),
    tabLoad := .ok (), pollResult := some ⟨"a", "r", 3600, "bearer"⟩,
    windowRemoveOk := true }

/-! ## Helper lemmas -/

theorem getD_mem_of_lt {α : Type _} {l : List α} {i : Nat} (d : α)
    (h : i < l.length) : l.getD i d ∈ l := by
  rw [List.getD_eq_getElem?_getD, List.getElem?_eq_getElem h]
  exact List.getElem_mem h

theorem get_cons_set_perm {α : Type _} :
    ∀ (t : List α) (m : Nat) (hm : m < t.length) (x : α),
      List.Perm (t.get ⟨m, hm⟩ :: t.set m x) (x :: t)
  | b :: s, 0, _, x => List.Perm.swap x b s
  | b :: s, m + 1, hm, x => by
    have hms : m < s.length := by simpa using hm
    have e : (b :: s).get ⟨m + 1, hm⟩ :: (b :: s).set (m + 1) x
        = s.get ⟨m, hms⟩ :: b :: s.set m x := by simp
    rw [e]
    exact (List.Perm.swap _ _ _).trans
      (((get_cons_set_perm s m hms x).cons b).trans (List.Perm.swap _ _ _))

theorem set_set_perm {α : Type _} :
    ∀ (l : List α) (i j : Nat) (hi : i < l.length) (hj : j < l.length),
      List.Perm ((l.set i (l.get ⟨j, hj⟩)).set j (l.get ⟨i, hi⟩)) l
  | a :: t, 0, 0, _, _ => by simp
  | a :: t, 0, m + 1, hi, hj => by
    have hms : m < t.length := by simpa using hj
    have : ((a :: t).set 0 ((a :: t).get ⟨m + 1, hj⟩)).set (m + 1) ((a :: t).get ⟨0, hi⟩)
        = t.get ⟨m, hms⟩ :: t.set m a := by simp
    rw [this]
    exact get_cons_set_perm t m hms a
  | a :: t, k + 1, 0, hi, hj => by
    have hks : k < t.length := by simpa using hi
    have : ((a :: t).set (k + 1) ((a :: t).get ⟨0, hj⟩)).set 0 ((a :: t).get ⟨k + 1, hi⟩)
        = t.get ⟨k, hks⟩ :: t.set k a := by simp
    rw [this]
    exact get_cons_set_perm t k hks a
  | a :: t, k + 1, m + 1, hi, hj => by
    have hks : k < t.length := by simpa using hi
    have hms : m < t.length := by simpa using hj
    have : ((a :: t).set (k + 1) ((a :: t).get ⟨m + 1, hj⟩)).set (m + 1)
             ((a :: t).get ⟨k + 1, hi⟩)
        = a :: (t.set k (t.get ⟨m, hms⟩)).set m (t.get ⟨k, hks⟩) := by simp
    rw [this]
    exact (set_set_perm t k m hks hms).cons a

theorem listSwap_perm (l : List Char) (i j : Nat) : List.Perm (listSwap l i j) l := by
  unfold listSwap
  split
  · next h =>
    obtain ⟨hi, hj⟩ := h
    have e1 : l.getD j 'a' = l.get ⟨j, hj⟩ := by
      rw [List.getD_eq_getElem?_getD, List.getElem?_eq_getElem hj]; rfl
    have e2 : l.getD i 'a' = l.get ⟨i, hi⟩ := by
      rw [List.getD_eq_getElem?_getD, List.getElem?_eq_getElem hi]; rfl
    rw [e1, e2]
    exact set_set_perm l i j hi hj
  · exact List.Perm.refl l

theorem fyShuffle_perm (rand : Nat → Nat) (base : Nat) :
    ∀ (i : Nat) (l : List Char), List.Perm (fyShuffle rand base i l) l
  | 0, l => List.Perm.refl l
  | i + 1, l =>
    (fyShuffle_perm rand base i _).trans
      (listSwap_perm l (i + 1) (draw rand (base + i) (i + 2)))

/-! ## Claim theorems -/

/-- C10: for every requested length n, generatePassword returns exactly
`max n 4` characters (n when n is at least 4, otherwise 4), every character
is drawn from the lowercase/uppercase/digit/special alphabet, and at least
one character of each of the four classes occurs. -/
theorem generatePassword_spec (len : Nat) (rand : Nat → Nat) :
    (generatePassword len rand).length = max len 4 ∧
    (generatePassword len rand).all (fun c => decide (c ∈ allChars)) = true ∧
    (generatePassword len rand).any (fun c => decide (c ∈ lowercaseChars)) = true ∧
    (generatePassword len rand).any (fun c => decide (c ∈ uppercaseChars)) = true ∧
    (generatePassword len rand).any (fun c => decide (c ∈ digitChars)) = true ∧
    (generatePassword len rand).any (fun c => decide (c ∈ specialChars)) = true := by
  have hgp : List.Perm (generatePassword len rand) (passwordSeed len rand) :=
    fyShuffle_perm rand (passwordSeed len rand).length
      ((passwordSeed len rand).length - 1) (passwordSeed len rand)
  have hseedlen : (passwordSeed len rand).length = 4 + (len - 4) := by
    simp [passwordSeed, passwordFill]
    omega
  have hmemiff : ∀ c, c ∈ generatePassword len rand ↔ c ∈ passwordSeed len rand :=
    fun c => hgp.mem_iff
  refine ⟨?_, ?_, ?_, ?_, ?_, ?_⟩
  · rw [hgp.length_eq, hseedlen]; omega
  · rw [List.all_eq_true]
    intro c hc
    simp only [decide_eq_true_eq]
    have hc2 : c ∈ passwordSeed len rand := (hmemiff c).mp hc
    simp only [passwordSeed, List.cons_append, List.nil_append, List.mem_append,
      List.mem_cons, List.not_mem_nil, or_false] at hc2
    have hlc : lowercaseChars.getD (draw rand 0 lowercaseChars.length) 'a'
        ∈ lowercaseChars := getD_mem_of_lt _ (Nat.mod_lt _ (by decide))
    have huc : uppercaseChars.getD (draw rand 1 uppercaseChars.length) 'a'
        ∈ uppercaseChars := getD_mem_of_lt _ (Nat.mod_lt _ (by decide))
    have hdc : digitChars.getD (draw rand 2 digitChars.length) 'a'
        ∈ digitChars := getD_mem_of_lt _ (Nat.mod_lt _ (by decide))
    have hsc : specialChars.getD (draw rand 3 specialChars.length) 'a'
        ∈ specialChars := getD_mem_of_lt _ (Nat.mod_lt _ (by decide))
    rcases hc2 with h | h | h | h | h
    · subst h; simp only [allChars, List.mem_append]; tauto
    · subst h; simp only [allChars, List.mem_append]; tauto
    · subst h; simp only [allChars, List.mem_append]; tauto
    · subst h; simp only [allChars, List.mem_append]; tauto
    · simp only [passwordFill, List.mem_map] at h
      obtain ⟨i, _, rfl⟩ := h
      exact getD_mem_of_lt _ (Nat.mod_lt _ (by decide))
  · rw [List.any_eq_true]
    refine ⟨lowercaseChars.getD (draw rand 0 lowercaseChars.length) 'a', ?_, ?_⟩
    · exact (hmemiff _).mpr (by simp [passwordSeed])
    · simp only [decide_eq_true_eq]
      exact getD_mem_of_lt _ (Nat.mod_lt _ (by decide))
  · rw [List.any_eq_true]
    refine ⟨uppercaseChars.getD (draw rand 1 uppercaseChars.length) 'a', ?_, ?_⟩
    · exact (hmemiff _).mpr (by simp [passwordSeed])
    · simp only [decide_eq_true_eq]
      exact getD_mem_of_lt _ (Nat.mod_lt _ (by decide))
  · rw [List.any_eq_true]
    refine ⟨digitChars.getD (draw rand 2 digitChars.length) 'a', ?_, ?_⟩
    · exact (hmemiff _).mpr (by simp [passwordSeed])
    · simp only [decide_eq_true_eq]
      exact getD_mem_of_lt _ (Nat.mod_lt _ (by decide))
  · rw [List.any_eq_true]
    refine ⟨specialChars.getD (draw rand 3 specialChars.length) 'a', ?_, ?_⟩
    · exact (hmemiff _).mpr (by simp [passwordSeed])
    · simp only [decide_eq_true_eq]
      exact getD_mem_of_lt _ (Nat.mod_lt _ (by decide))

/-- C3: after a saveToHistory call on a history of at most 100 records, the
history still has at most 100 records, the new record sits at the head, and
when the history already held 100 records exactly the oldest (last) record
is evicted and the rest are kept unchanged. -/
theorem saveToHistory_spec (hist : List HistRecord) (record : HistRecord)
    (hlen : hist.length ≤ 100) :
    (saveToHistory hist record).length ≤ 100 ∧
    (saveToHistory hist record).head? = some record ∧
    (hist.length = 100 → saveToHistory hist record = record :: hist.dropLast) := by
  unfold saveToHistory
  by_cases h : 100 < (record :: hist).length
  · rw [if_pos h]
    simp only [List.length_cons] at h
    have h100 : hist.length = 100 := by omega
    refine ⟨?_, ?_, ?_⟩
    · simp
    · rw [List.take_succ_cons]; rfl
    · intro _
      rw [List.take_succ_cons]
      simp [List.dropLast_eq_take, h100]
  · rw [if_neg h]
    simp only [List.length_cons, not_lt] at h
    exact ⟨by simpa using h, rfl, fun h100 => by omega⟩

theorem saveToHistory_spec_witness :
    (saveToHistory (List.replicate 100 demoRecord) demoRecord).length ≤ 100 ∧
    saveToHistory (List.replicate 100 demoRecord) demoRecord
      = demoRecord :: (List.replicate 100 demoRecord).dropLast := by
  have h := saveToHistory_spec (List.replicate 100 demoRecord) demoRecord (by simp)
  exact ⟨h.1, h.2.2 (by simp)⟩

/-- C6: the token-validation classifier assigns exactly one of the five
statuses and agrees with the spec precedence (suspension marker; 401 or
expiry markers; denied/validation/not-found markers; HTTP at least 500 or
network failure; HTTP success; otherwise invalid) on every probe outcome. -/
theorem validateToken_matches_spec (r : Option ProbeResp) :
    validateToken r = specClassifyProbe r := by
  cases r with
  | none => rfl
  | some pr =>
    rcases pr with ⟨st, m⟩
    unfold validateToken specClassifyProbe
    simp only
    split_ifs with h1 h2 h3 h4 h5 h6 h7 <;>
      first
      | rfl
      | (exfalso; simp [respOk] at *; omega)

/-- C2: the promise-chained lock does not provide mutual exclusion.  In the
reachable interleaving `lockBreakTrace` (session 0 holds the lock while
sessions 1 and 2 arrive and suspend on the same promise; session 0
releases), two sessions end up inside the guarded critical section at the
same instant, so the claimed at-most-one-holder invariant fails on the
code. -/
theorem apiLock_two_holders :
    (runLock (initLock 3) lockBreakTrace).map inCritCount = some 2 := by rfl

/-- C8: startBatchRegistration rejects with success = false when a batch is
already running, and rejects with success = false when the Gmail base
address is absent; in both cases the returned state is exactly the input
state (no global state is mutated). -/
theorem startBatchRegistration_rejects (st : SWState) (loopCount concurrency : Nat)
    (gmailAddress : String) :
    (st.batch.isRunning = true →
      startBatchRegistration st loopCount concurrency gmailAddress =
        ({ success := false, error := some "已有注册任务在运行" }, st)) ∧
    (st.batch.isRunning = false → gmailAddress = "" →
      startBatchRegistration st loopCount concurrency gmailAddress =
        ({ success := false, error := some "未配置 Gmail 地址" }, st)) := by
  constructor
  · intro hrun
    unfold startBatchRegistration
    rw [if_pos hrun]
  · intro hrun haddr
    unfold startBatchRegistration
    rw [if_neg (by simp [hrun]), if_pos haddr]

theorem startBatchRegistration_rejects_witness :
    (startBatchRegistration ⟨"x@y.z", initBatch 1 1⟩ 3 2 "a@b.c" =
      ({ success := false, error := some "已有注册任务在运行" },
       (⟨"x@y.z", initBatch 1 1⟩ : SWState))) ∧
    (startBatchRegistration ⟨"", { initBatch 1 1 with isRunning := false }⟩ 3 2 "" =
      ({ success := false, error := some "未配置 Gmail 地址" },
       (⟨"", { initBatch 1 1 with isRunning := false }⟩ : SWState))) := by
  refine ⟨?_, ?_⟩
  · exact (startBatchRegistration_rejects ⟨"x@y.z", initBatch 1 1⟩ 3 2 "a@b.c").1 rfl
  · exact (startBatchRegistration_rejects
      ⟨"", { initBatch 1 1 with isRunning := false }⟩ 3 2 "").2 rfl rfl

/-- C9: for every environment (success, failure or an error raised at any
step), runSessionRegistration resolves to a boolean (true exactly on the
full success path), and on every path the cleanup runs: the mail-provider
reference ends up cleared and, whenever a window id was recorded, a close
request for exactly that window is issued. -/
theorem runSessionRegistration_spec (env : RegEnv) (sid now : Nat) :
    (runSessionRegistration env (createSession sid now)).1 = pipelineSucceeds env ∧
    (runSessionRegistration env (createSession sid now)).2.1.mailClient = none ∧
    (createdWindowId env).elim True
      (fun wid => RegEff.windowCloseRequest wid ∈
        (runSessionRegistration env (createSession sid now)).2.2) := by
  rcases env with ⟨fn, ln, pw, gb, ci, qa, wc, tl, pr, wr⟩
  by_cases hgb : gb = "" <;>
    rcases ci with e | email <;>
    rcases qa with e2 | auth <;>
    rcases wc with e3 | ow
  all_goals try rcases ow with _ | ⟨oid, tabs⟩
  all_goals try rcases oid with _ | wid
  all_goals try rcases tabs with _ | ⟨t0, trest⟩
  all_goals rcases pr with _ | tok
  all_goals rcases wr with _ | _
  all_goals
    simp [runSessionRegistration, regTryBlock, windowStep, regFinally,
      createSession, pipelineSucceeds, createdWindowId, hgb]

theorem getLast?_cons_of_ne_nil {α : Type _} (a : α) {l : List α} (h : l ≠ []) :
    (a :: l).getLast? = l.getLast? := by
  cases l with
  | nil => exact absurd rfl h
  | cons b t => exact List.getLast?_cons_cons

theorem chunkSizes5_length : ∀ n : Nat, (chunkSizes5 n).length = ceilDiv5 n
  | 0 => by simp [chunkSizes5, ceilDiv5]
  | n + 1 => by
    rw [chunkSizes5]
    by_cases h : n + 1 ≤ 5
    · rw [if_pos h]
      simp only [List.length_cons, List.length_nil, ceilDiv5]
      omega
    · rw [if_neg h, List.length_cons, chunkSizes5_length (n + 1 - 5)]
      simp only [ceilDiv5]
      omega
  termination_by n => n
  decreasing_by omega

theorem vaBatchLoop_spec (oracle : Nat → VResult) (total : Nat) :
    ∀ (fuel : Nat) (rs : List HistRecord) (idx validated : Nat),
      rs.length ≤ fuel → rs ≠ [] →
      (vaBatchLoop oracle total fuel idx validated rs).progress.length
          = ceilDiv5 rs.length ∧
      (vaBatchLoop oracle total fuel idx validated rs).progress.getLast?
          = some (validated + rs.length, total) ∧
      (vaBatchLoop oracle total fuel idx validated rs).batchSizes
          = chunkSizes5 rs.length ∧
      (vaBatchLoop oracle total fuel idx validated rs).delays
          = ceilDiv5 rs.length - 1 := by
  intro fuel
  induction fuel with
  | zero =>
    intro rs idx validated hle hne
    cases rs with
    | nil => exact absurd rfl hne
    | cons r rest => simp at hle
  | succ fuel ih =>
    intro rs idx validated hle hne
    cases rs with
    | nil => exact absurd rfl hne
    | cons r rest =>
      by_cases hrest : (r :: rest).drop 5 = []
      · have hlen5 : (r :: rest).length ≤ 5 := List.drop_eq_nil_iff.mp hrest
        have hbatch : ((r :: rest).take 5).length = (r :: rest).length := by
          rw [List.length_take]; omega
        simp only [List.length_cons] at hlen5
        simp only [vaBatchLoop, hrest]
        simp only [vaBatchLoop, emptyVAOut, hbatch, List.isEmpty_nil, List.length_cons]
        refine ⟨?_, ?_, ?_, ?_⟩
        · simp only [List.length_nil, ceilDiv5]; omega
        · simp
        · rw [chunkSizes5, if_pos (by omega)]
        · simp only [if_pos trivial, ceilDiv5]; omega
      · have hlen5 : 5 < (r :: rest).length := by
          by_contra hc
          exact hrest (List.drop_eq_nil_of_le (by omega))
        have hbatch : ((r :: rest).take 5).length = 5 := by
          rw [List.length_take]; omega
        have hdlen : ((r :: rest).drop 5).length = (r :: rest).length - 5 :=
          List.length_drop 5 (r :: rest)
        have hdle : ((r :: rest).drop 5).length ≤ fuel := by
          simp only [hdlen]
          simp only [List.length_cons] at hle hlen5 ⊢
          omega
        have htail := ih ((r :: rest).drop 5) (idx + 5) (validated + 5) hdle hrest
        have htailne : (vaBatchLoop oracle total fuel (idx + 5) (validated + 5)
            ((r :: rest).drop 5)).progress ≠ [] := by
          intro hnil
          have h1 := htail.1
          rw [hnil] at h1
          simp only [List.length_nil, ceilDiv5, hdlen, List.length_cons] at h1
          simp only [List.length_cons] at hlen5
          omega
        have hde : ((r :: rest).drop 5).isEmpty = false := by
          simpa [List.isEmpty_iff] using hrest
        simp only [List.length_cons] at hlen5
        simp only [vaBatchLoop, hde, hbatch, List.length_cons]
        refine ⟨?_, ?_, ?_, ?_⟩
        · rw [htail.1, hdlen]
          simp only [ceilDiv5, List.length_cons]
          omega
        · rw [getLast?_cons_of_ne_nil _ htailne, htail.2.1, hdlen]
          simp only [List.length_cons]
          congr 2
          omega
        · rw [htail.2.2.1, hdlen]
          simp only [List.length_cons]
          rw [chunkSizes5, if_neg (by omega)]
        · rw [htail.2.2.2]
          simp only [hdlen, ceilDiv5, List.length_cons]
          rw [if_neg (by decide)]
          omega


/-- C5 counterexample: for a history with exactly one eligible record the
claim asserts exactly ceil(1/5) = 1 progress notification, but
validateAllTokens emits 2 (an initial one before the first batch and one
after the batch). -/
theorem validateAllTokens_progress_counterexample :
    (List.filter eligibleRecord [demoRecord]).length = 1 ∧
    ceilDiv5 1 = 1 ∧
    (validateAllTokens [demoRecord] (fun _ => demoVResult)).progress.length = 2 := by
  refine ⟨by decide, rfl, by decide⟩

/-- C5 (amended): over N eligible records with N at least 1, the validator
processes ceil(N/5) batches (all of size 5 except a smaller final batch of
N mod 5 when N mod 5 is non-zero), with one 1-second delay between each
pair of consecutive batches, and emits exactly ceil(N/5) + 1 progress
notifications: an initial (0, N) plus one after each batch, the last of
which is (N, N). -/
theorem validateAllTokens_amended (history : List HistRecord) (oracle : Nat → VResult)
    (hN : 1 ≤ (history.filter eligibleRecord).length) :
    (validateAllTokens history oracle).progress.length
        = ceilDiv5 (history.filter eligibleRecord).length + 1 ∧
    (validateAllTokens history oracle).progress.head?
        = some (0, (history.filter eligibleRecord).length) ∧
    (validateAllTokens history oracle).progress.getLast?
        = some ((history.filter eligibleRecord).length,
                (history.filter eligibleRecord).length) ∧
    (validateAllTokens history oracle).batchSizes
        = chunkSizes5 (history.filter eligibleRecord).length ∧
    (validateAllTokens history oracle).batchSizes.length
        = ceilDiv5 (history.filter eligibleRecord).length ∧
    (validateAllTokens history oracle).delays
        = ceilDiv5 (history.filter eligibleRecord).length - 1 := by
  have hne : history.filter eligibleRecord ≠ [] := by
    intro hnil
    rw [hnil] at hN
    simp at hN
  have hloop := vaBatchLoop_spec oracle (history.filter eligibleRecord).length
    (history.filter eligibleRecord).length (history.filter eligibleRecord) 0 0
    (Nat.le_refl _) hne
  have hloopne : (vaBatchLoop oracle (history.filter eligibleRecord).length
      (history.filter eligibleRecord).length 0 0
      (history.filter eligibleRecord)).progress ≠ [] := by
    intro hnil
    have := hloop.1
    rw [hnil] at this
    simp only [List.length_nil, ceilDiv5] at this
    omega
  unfold validateAllTokens
  rw [if_neg (by omega)]
  simp only
  refine ⟨?_, rfl, ?_, ?_, ?_, ?_⟩
  · simp only [List.length_cons, hloop.1]
  · rw [getLast?_cons_of_ne_nil _ hloopne, hloop.2.1]
    simp
  · exact hloop.2.2.1
  · rw [hloop.2.2.1, chunkSizes5_length]
  · exact hloop.2.2.2

theorem validateAllTokens_amended_witness :
    (validateAllTokens [demoRecord] (fun _ => demoVResult)).progress.length = 2 ∧
    (validateAllTokens [demoRecord] (fun _ => demoVResult)).progress.getLast?
      = some (1, 1) := by
  have h := validateAllTokens_amended [demoRecord] (fun _ => demoVResult) (by decide)
  exact ⟨h.1.trans (by decide), h.2.2.1.trans (by decide)⟩

theorem pollLoop_exit (interval : Nat) (abort stop : Nat → Bool)
    (fetch : Nat → FetchResult) (dur : Nat → Nat) (j : Nat)
    (hj : exitsAt interval abort stop fetch dur j) :
    ∀ d k, k + d = j →
      (∀ i, k ≤ i → i < j → ¬ exitsAt interval abort stop fetch dur i) →
      pollLoop interval abort stop fetch dur k (elapsedAt interval dur k) =
        (if abort j = true ∨ stop j = true ∨ pollTimeoutMs ≤ elapsedAt interval dur j
         then none else (fetch j).bundleOf) := by
  intro d
  induction d with
  | zero =>
    intro k hk _
    have hkj : k = j := by omega
    subst hkj
    rw [pollLoop]
    by_cases hc : abort k = true ∨ stop k = true ∨
        pollTimeoutMs ≤ elapsedAt interval dur k
    · rw [dif_pos hc, if_pos hc]
    · rw [dif_neg hc, if_neg hc]
      have hb : (fetch k).isBundle = true := by
        rcases hj with h | h | h | h
        · exact absurd (Or.inl h) hc
        · exact absurd (Or.inr (Or.inl h)) hc
        · exact absurd (Or.inr (Or.inr h)) hc
        · exact h
      cases hfk : fetch k with
      | bundle t => simp [FetchResult.bundleOf]
      | pendingNull => rw [hfk] at hb; simp [FetchResult.isBundle] at hb
      | thrown m => rw [hfk] at hb; simp [FetchResult.isBundle] at hb
  | succ d ih =>
    intro k hk hmin
    have hkj : k < j := by omega
    have hnk : ¬ exitsAt interval abort stop fetch dur k :=
      hmin k (Nat.le_refl k) hkj
    have hcancel : ¬(abort k = true ∨ stop k = true ∨
        pollTimeoutMs ≤ elapsedAt interval dur k) := by
      intro hc
      rcases hc with h | h | h
      · exact hnk (Or.inl h)
      · exact hnk (Or.inr (Or.inl h))
      · exact hnk (Or.inr (Or.inr (Or.inl h)))
    have hnb : (fetch k).isBundle = false := by
      cases hfb : (fetch k).isBundle
      · rfl
      · exact absurd (Or.inr (Or.inr (Or.inr hfb))) hnk
    rw [pollLoop, dif_neg hcancel]
    have hstep : elapsedAt interval dur k + dur k + pollIntervalOf interval
        = elapsedAt interval dur (k + 1) := rfl
    cases hfk : fetch k with
    | bundle t => rw [hfk] at hnb; simp [FetchResult.isBundle] at hnb
    | pendingNull =>
      simp only [hstep]
      exact ih (k + 1) (by omega) (fun i hi hij => hmin i (by omega) hij)
    | thrown m =>
      simp only [hstep]
      exact ih (k + 1) (by omega) (fun i hi hij => hmin i (by omega) hij)

/-- C4: with an authorization grant present, pollSessionToken is determined
by the first loop iteration j at which an exit condition holds: if at that
iteration the session abort flag or the global stop flag is set or the
10-minute (600000 ms) timeout has elapsed, the result is null; otherwise
that iteration is a successful fetch and exactly its credential bundle is
returned.  Pending and thrown fetch outcomes are not exit conditions (both
continue the loop), and the inter-attempt sleep is the advertised interval
in seconds floored at 2000 ms. -/
theorem pollSessionToken_spec (interval : Nat) (abort stop : Nat → Bool)
    (fetch : Nat → FetchResult) (dur : Nat → Nat) (j : Nat)
    (hj : exitsAt interval abort stop fetch dur j)
    (hmin : ∀ i, i < j → ¬ exitsAt interval abort stop fetch dur i) :
    pollSessionToken true interval abort stop fetch dur =
      (if abort j = true ∨ stop j = true ∨ pollTimeoutMs ≤ elapsedAt interval dur j
       then none else (fetch j).bundleOf) ∧
    pollIntervalOf interval = max (interval * 1000) 2000 ∧
    pollTimeoutMs = 600000 := by
  refine ⟨?_, rfl, rfl⟩
  unfold pollSessionToken
  rw [if_pos rfl]
  exact pollLoop_exit interval abort stop fetch dur j hj j 0 (by omega)
    (fun i _ hij => hmin i hij)

theorem pollSessionToken_spec_witness :
    pollSessionToken true 1 (fun _ => false) (fun _ => false)
      (fun k => if k = 2 then FetchResult.bundle ⟨"a", "r", 3600, "bearer"⟩
                else FetchResult.pendingNull)
      (fun _ => 0) = some ⟨"a", "r", 3600, "bearer"⟩ := by
  have h := (pollSessionToken_spec 1 (fun _ => false) (fun _ => false)
      (fun k => if k = 2 then FetchResult.bundle ⟨"a", "r", 3600, "bearer"⟩
                else FetchResult.pendingNull)
      (fun _ => 0) 2
      (by unfold exitsAt; decide)
      (by intro i hi
          unfold exitsAt
          interval_cases i <;> decide)).1
  rw [h, if_neg (by decide)]
  decide

theorem countP_set {α : Type _} (p : α → Bool) :
    ∀ (l : List α) (w : Nat) (x y : α), l[w]? = some y →
      (l.set w x).countP p + (if p y then 1 else 0)
        = l.countP p + (if p x then 1 else 0)
  | [], w, x, y => by intro h; simp at h
  | a :: as, 0, x, y => by
    intro h
    rw [List.getElem?_cons_zero] at h
    cases h
    simp only [List.set_cons_zero, List.countP_cons]
    cases hpa : p a <;> cases hpx : p x <;> simp
  | a :: as, w + 1, x, y => by
    intro h
    rw [List.getElem?_cons_succ] at h
    have ih := countP_set p as w x y h
    simp only [List.set_cons_succ, List.countP_cons]
    omega

theorem exists_ne_done_of_set (ws : List WPhase) (w : Nat) (ph : WPhase)
    (hb : w < ws.length) (hph : ph ≠ WPhase.done) :
    ∃ x ∈ ws.set w ph, x ≠ WPhase.done :=
  ⟨ph, List.mem_set ws w hb ph, hph⟩

theorem workingCount_set_eq (ws : List WPhase) (w : Nat) (phOld phNew : WPhase)
    (hwp : ws[w]? = some phOld) :
    workingCount (ws.set w phNew) + (if isWorkingPhase phOld then 1 else 0)
      = workingCount ws + (if isWorkingPhase phNew then 1 else 0) :=
  countP_set isWorkingPhase ws w phNew phOld hwp

theorem applyBAct_preserves (T : Nat) (s s₂ : BState) (a : BAct)
    (ha : a ≠ BAct.stop) (happ : applyBAct s a = some s₂)
    (hinv : BInv T s ∨ BFinal T s) :
    BInv T s₂ ∨ BFinal T s₂ := by
  rcases hinv with hinv | hfin
  · obtain ⟨hss, hir, htt, hsum, hlive⟩ := hinv
    cases a with
    | wake w =>
      rcases hwp : s.workers[w]? with _ | ph
      · simp [applyBAct, hwp] at happ
      · have hb : w < s.workers.length := (List.getElem?_eq_some_iff.mp hwp).1
        cases ph with
        | loopTop => simp [applyBAct, hwp] at happ
        | working sid => simp [applyBAct, hwp] at happ
        | done => simp [applyBAct, hwp] at happ
        | stagger =>
          have hcp := workingCount_set_eq s.workers w WPhase.stagger
            WPhase.loopTop hwp
          simp [isWorkingPhase] at hcp
          simp only [applyBAct, hwp, Option.some.injEq] at happ
          subst happ
          left
          refine ⟨hss, hir, htt, ?_, fun _ =>
            exists_ne_done_of_set s.workers w WPhase.loopTop hb (by simp)⟩
          show s.totalRegistered + s.totalFailed + s.taskQueue.length
            + workingCount (s.workers.set w WPhase.loopTop) = T
          omega
        | delay =>
          have hcp := workingCount_set_eq s.workers w WPhase.delay
            WPhase.loopTop hwp
          simp [isWorkingPhase] at hcp
          simp only [applyBAct, hwp, Option.some.injEq] at happ
          subst happ
          left
          refine ⟨hss, hir, htt, ?_, fun _ =>
            exists_ne_done_of_set s.workers w WPhase.loopTop hb (by simp)⟩
          show s.totalRegistered + s.totalFailed + s.taskQueue.length
            + workingCount (s.workers.set w WPhase.loopTop) = T
          omega
    | popTask w =>
      rcases hwp : s.workers[w]? with _ | ph
      · simp [applyBAct, hwp] at happ
      · have hb : w < s.workers.length := (List.getElem?_eq_some_iff.mp hwp).1
        cases ph with
        | stagger => simp [applyBAct, hwp] at happ
        | working sid => simp [applyBAct, hwp] at happ
        | delay => simp [applyBAct, hwp] at happ
        | done => simp [applyBAct, hwp] at happ
        | loopTop =>
          have hcp := workingCount_set_eq s.workers w WPhase.loopTop
            (WPhase.working s.nextSid) hwp
          simp [isWorkingPhase] at hcp
          rcases hq : s.taskQueue with _ | ⟨t, rest⟩
          · simp [applyBAct, hwp, hq, hss] at happ
          · simp only [applyBAct, hwp, hq, hss, Bool.false_eq_true, if_false,
              Option.some.injEq] at happ
            subst happ
            left
            refine ⟨rfl, hir, htt, ?_, fun _ =>
              exists_ne_done_of_set s.workers w (WPhase.working s.nextSid) hb
                (by simp)⟩
            show s.totalRegistered + s.totalFailed + rest.length
              + workingCount (s.workers.set w (WPhase.working s.nextSid)) = T
            rw [hq] at hsum
            simp only [List.length_cons] at hsum
            omega
    | exitLoop w =>
      rcases hwp : s.workers[w]? with _ | ph
      · simp [applyBAct, hwp] at happ
      · have hb : w < s.workers.length := (List.getElem?_eq_some_iff.mp hwp).1
        cases ph with
        | stagger => simp [applyBAct, hwp] at happ
        | working sid => simp [applyBAct, hwp] at happ
        | delay => simp [applyBAct, hwp] at happ
        | done => simp [applyBAct, hwp] at happ
        | loopTop =>
          have hcp := workingCount_set_eq s.workers w WPhase.loopTop
            WPhase.done hwp
          simp [isWorkingPhase] at hcp
          rcases hq : s.taskQueue with _ | ⟨t, rest⟩
          · simp only [applyBAct, hwp, hq, hss, List.isEmpty_nil,
              Bool.false_eq_true, Bool.false_or, if_true,
              Option.some.injEq] at happ
            subst happ
            left
            refine ⟨rfl, hir, htt, ?_, ?_⟩
            · show s.totalRegistered + s.totalFailed + 0
                + workingCount (s.workers.set w WPhase.done) = T
              rw [hq] at hsum
              simp only [List.length_nil] at hsum
              omega
            · intro hq2
              exact absurd rfl hq2
          · simp [applyBAct, hwp, hq, hss] at happ
    | finishTask w ok =>
      rcases hwp : s.workers[w]? with _ | ph
      · simp [applyBAct, hwp] at happ
      · have hb : w < s.workers.length := (List.getElem?_eq_some_iff.mp hwp).1
        cases ph with
        | stagger => simp [applyBAct, hwp] at happ
        | loopTop => simp [applyBAct, hwp] at happ
        | delay => simp [applyBAct, hwp] at happ
        | done => simp [applyBAct, hwp] at happ
        | working sid =>
          have hcp := workingCount_set_eq s.workers w (WPhase.working sid)
            WPhase.delay hwp
          simp [isWorkingPhase] at hcp
          simp only [applyBAct, hwp, Option.some.injEq] at happ
          subst happ
          left
          refine ⟨hss, hir, htt, ?_, fun _ =>
            exists_ne_done_of_set s.workers w WPhase.delay hb (by simp)⟩
          show (if ok = true then s.totalRegistered + 1 else s.totalRegistered)
            + (if ok = true then s.totalFailed else s.totalFailed + 1)
            + s.taskQueue.length + workingCount (s.workers.set w WPhase.delay) = T
          cases ok <;>
            simp only [Bool.false_eq_true, if_false, if_true] <;> omega
    | stop => exact absurd rfl ha
    | complete =>
      by_cases hg : s.isRunning = true ∧ s.workers.all (fun w => w = WPhase.done)
      · simp only [applyBAct, if_pos hg, Option.some.injEq] at happ
        subst happ
        right
        have hall : ∀ x ∈ s.workers, x = WPhase.done := by
          intro x hx
          have := (List.all_eq_true.mp hg.2) x hx
          simpa using this
        have hwc : workingCount s.workers = 0 := by
          unfold workingCount
          rw [List.countP_eq_zero]
          intro x hx
          rw [hall x hx]
          simp [isWorkingPhase]
        have hqnil : s.taskQueue = [] := by
          by_contra hq
          obtain ⟨x, hx, hxd⟩ := hlive hq
          exact hxd (hall x hx)
        refine ⟨rfl, ?_, ?_, ?_⟩
        · show s.totalRegistered + s.totalFailed = T
          rw [hqnil] at hsum
          simp only [List.length_nil] at hsum
          omega
        · show (if s.shouldStop = true then GStatus.idle else GStatus.completed)
            = GStatus.completed
          rw [hss]
          simp
        · exact hall
      · simp [applyBAct, if_neg hg] at happ
        exfalso
        apply hg
        refine ⟨happ.1.1, ?_⟩
        rw [List.all_eq_true]
        intro x hx
        simpa using happ.1.2 x hx
  · obtain ⟨hir, hsum, hst, hall⟩ := hfin
    have hdone : ∀ (w : Nat) (ph : WPhase), s.workers[w]? = some ph →
        ph = WPhase.done := fun w ph hwp => hall ph (List.getElem?_mem hwp)
    cases a with
    | wake w =>
      rcases hwp : s.workers[w]? with _ | ph
      · simp [applyBAct, hwp] at happ
      · rw [hdone w ph hwp] at hwp
        simp [applyBAct, hwp] at happ
    | popTask w =>
      rcases hwp : s.workers[w]? with _ | ph
      · simp [applyBAct, hwp] at happ
      · rw [hdone w ph hwp] at hwp
        simp [applyBAct, hwp] at happ
    | exitLoop w =>
      rcases hwp : s.workers[w]? with _ | ph
      · simp [applyBAct, hwp] at happ
      · rw [hdone w ph hwp] at hwp
        simp [applyBAct, hwp] at happ
    | finishTask w ok =>
      rcases hwp : s.workers[w]? with _ | ph
      · simp [applyBAct, hwp] at happ
      · rw [hdone w ph hwp] at hwp
        simp [applyBAct, hwp] at happ
    | stop => exact absurd rfl ha
    | complete =>
      simp only [applyBAct] at happ
      rw [if_neg (by intro hg; rw [hg.1] at hir; exact Bool.noConfusion hir)] at happ
      exact absurd happ (by simp)

theorem runBatch_preserves (T : Nat) :
    ∀ (acts : List BAct) (s s₂ : BState),
      (∀ a ∈ acts, a ≠ BAct.stop) → runBatch s acts = some s₂ →
      BInv T s ∨ BFinal T s → BInv T s₂ ∨ BFinal T s₂
  | [], s, s₂, _, hrun, hinv => by
    rw [runBatch] at hrun
    cases hrun
    exact hinv
  | a :: acts, s, s₂, hns, hrun, hinv => by
    rw [runBatch] at hrun
    rcases happ : applyBAct s a with _ | s₁
    · rw [happ] at hrun
      exact absurd hrun (by simp)
    · rw [happ] at hrun
      exact runBatch_preserves T acts s₁ s₂ (fun b hb => hns b (List.mem_cons_of_mem a hb))
        hrun
        (applyBAct_preserves T s s₁ a (hns a (List.mem_cons_self a acts)) happ hinv)

/-- C1: for every target T, every concurrency of at least one worker and
every stop-free schedule, when the accepted batch resolves (isRunning back
to false, i.e. Promise.all of the workers returned) every one of the T
queued task tokens has been popped exactly once and has driven exactly one
session registration, so totalRegistered + totalFailed = T (and the batch
reports status completed). -/
theorem startBatch_total (T C : Nat) (acts : List BAct) (s : BState)
    (hC : 1 ≤ C) (hns : ∀ a ∈ acts, a ≠ BAct.stop)
    (hrun : runBatch (initBatch T C) acts = some s)
    (hres : s.isRunning = false) :
    s.totalRegistered + s.totalFailed = T ∧ s.status = GStatus.completed := by
  have hinit : BInv T (initBatch T C) := by
    refine ⟨rfl, rfl, rfl, ?_, ?_⟩
    · show 0 + 0 + (List.range T).length + workingCount
        ((List.range C).map (fun i => if i = 0 then WPhase.loopTop else WPhase.stagger)) = T
      have hwc : workingCount
          ((List.range C).map (fun i => if i = 0 then WPhase.loopTop else WPhase.stagger)) = 0 := by
        unfold workingCount
        rw [List.countP_eq_zero]
        intro x hx
        rcases List.mem_map.mp hx with ⟨i, _, rfl⟩
        by_cases hi : i = 0 <;> simp [hi, isWorkingPhase]
      rw [hwc, List.length_range]
      omega
    · intro _
      refine ⟨WPhase.loopTop, ?_, by simp⟩
      exact List.mem_map.mpr ⟨0, List.mem_range.mpr (by omega), by simp⟩
  rcases runBatch_preserves T acts (initBatch T C) s hns hrun (Or.inl hinit) with
    hinv | hfin
  · rw [hinv.2.1] at hres
    exact Bool.noConfusion hres
  · exact ⟨hfin.2.1, hfin.2.2.1⟩

theorem startBatch_total_witness :
    ({ taskQueue := [], shouldStop := false, isRunning := false,
       status := GStatus.completed, totalTarget := 1, totalRegistered := 1,
       totalFailed := 0, workers := [WPhase.done],
       sessions := [{ sid := 0, terminal := true, pollAbort := false }],
       nextSid := 1 } : BState).totalRegistered
      + ({ taskQueue := [], shouldStop := false, isRunning := false,
           status := GStatus.completed, totalTarget := 1, totalRegistered := 1,
           totalFailed := 0, workers := [WPhase.done],
           sessions := [{ sid := 0, terminal := true, pollAbort := false }],
           nextSid := 1 } : BState).totalFailed = 1
    ∧ ({ taskQueue := [], shouldStop := false, isRunning := false,
         status := GStatus.completed, totalTarget := 1, totalRegistered := 1,
         totalFailed := 0, workers := [WPhase.done],
         sessions := [{ sid := 0, terminal := true, pollAbort := false }],
         nextSid := 1 } : BState).status = GStatus.completed :=
  startBatch_total 1 1
    [BAct.popTask 0, BAct.finishTask 0 true, BAct.wake 0, BAct.exitLoop 0,
     BAct.complete]
    _ (by omega) (by decide) (by rfl) (by rfl)

theorem applyBAct_stop_preserves (s s₂ : BState) (a : BAct)
    (happ : applyBAct s a = some s₂) (hinv : SInv s) :
    SInv s₂ ∧ ∀ w, a ≠ BAct.popTask w := by
  obtain ⟨hss, hid⟩ := hinv
  cases a with
  | wake w =>
    rcases hwp : s.workers[w]? with _ | ph
    · simp [applyBAct, hwp] at happ
    · cases ph <;> simp only [applyBAct, hwp, Option.some.injEq] at happ <;>
        first
        | exact Option.noConfusion happ
        | (subst happ; exact ⟨⟨hss, hid⟩, fun w => by simp⟩)
  | popTask w =>
    rcases hwp : s.workers[w]? with _ | ph
    · simp [applyBAct, hwp] at happ
    · cases ph <;> simp [applyBAct, hwp, hss] at happ
  | exitLoop w =>
    rcases hwp : s.workers[w]? with _ | ph
    · simp [applyBAct, hwp] at happ
    · cases ph with
      | stagger => simp [applyBAct, hwp] at happ
      | working sid => simp [applyBAct, hwp] at happ
      | delay => simp [applyBAct, hwp] at happ
      | done => simp [applyBAct, hwp] at happ
      | loopTop =>
        simp [applyBAct, hwp, hss] at happ
        subst happ
        exact ⟨⟨rfl, hid⟩, fun w => by simp⟩
  | finishTask w ok =>
    rcases hwp : s.workers[w]? with _ | ph
    · simp [applyBAct, hwp] at happ
    · cases ph <;> simp only [applyBAct, hwp, Option.some.injEq] at happ <;>
        first
        | exact Option.noConfusion happ
        | (subst happ; exact ⟨⟨hss, hid⟩, fun w => by simp⟩)
  | stop =>
    simp only [applyBAct, Option.some.injEq] at happ
    subst happ
    exact ⟨⟨rfl, hid⟩, fun w => by simp⟩
  | complete =>
    by_cases hg : s.isRunning = true ∧ s.workers.all (fun w => w = WPhase.done)
    · simp only [applyBAct, if_pos hg, Option.some.injEq] at happ
      subst happ
      refine ⟨⟨hss, fun _ => ?_⟩, fun w => by simp⟩
      show (if s.shouldStop = true then GStatus.idle else GStatus.completed)
        = GStatus.idle
      rw [hss]
      simp
    · simp [applyBAct, if_neg hg] at happ
      exact absurd ⟨happ.1.1, by
        rw [List.all_eq_true]
        intro x hx
        simpa using happ.1.2 x hx⟩ hg

theorem runBatch_stop_preserves :
    ∀ (acts : List BAct) (s s₂ : BState),
      runBatch s acts = some s₂ → SInv s →
      SInv s₂ ∧ ∀ w, BAct.popTask w ∉ acts
  | [], s, s₂, hrun, hinv => by
    rw [runBatch] at hrun
    cases hrun
    exact ⟨hinv, fun w => by simp⟩
  | a :: acts, s, s₂, hrun, hinv => by
    rw [runBatch] at hrun
    rcases happ : applyBAct s a with _ | s₁
    · rw [happ] at hrun
      exact absurd hrun (by simp)
    · rw [happ] at hrun
      obtain ⟨hinv₁, hnp⟩ := applyBAct_stop_preserves s s₁ a happ hinv
      obtain ⟨hinv₂, hnp₂⟩ := runBatch_stop_preserves acts s₁ s₂ hrun hinv₁
      refine ⟨hinv₂, fun w => ?_⟩
      intro hmem
      rcases List.mem_cons.mp hmem with hmem | hmem
      · exact hnp w hmem.symm
      · exact hnp₂ w hmem

/-- C7: a STOP_REGISTRATION message during a running batch empties the task
queue at once and sets the pollAbort flag of every live session; afterwards
no schedule can ever pop another task (the stop flag stays set), and when
the batch resolves its status is idle, never completed. -/
theorem stopRegistration_guarantees (s s₁ s₂ : BState) (acts : List BAct)
    (hR : s.isRunning = true)
    (hstop : applyBAct s BAct.stop = some s₁)
    (hrun : runBatch s₁ acts = some s₂) :
    s₁.taskQueue = [] ∧
    (∀ e ∈ s₁.sessions, e.pollAbort = true) ∧
    (∀ w, BAct.popTask w ∉ acts) ∧
    (s₂.isRunning = false → s₂.status = GStatus.idle) := by
  simp only [applyBAct, Option.some.injEq] at hstop
  subst hstop
  have hinv : SInv { s with
      shouldStop := true
      taskQueue := []
      sessions := s.sessions.map (fun e => { e with pollAbort := true }) } := by
    refine ⟨rfl, fun hir2 => ?_⟩
    have hx : s.isRunning = false := hir2
    rw [hR] at hx
    exact Bool.noConfusion hx
  obtain ⟨hinv₂, hnp⟩ := runBatch_stop_preserves acts _ s₂ hrun hinv
  refine ⟨rfl, ?_, hnp, hinv₂.2⟩
  intro e he
  rcases List.mem_map.mp he with ⟨e0, _, rfl⟩
  rfl

theorem stopRegistration_guarantees_witness :
    ({ taskQueue := [], shouldStop := true, isRunning := true,
       status := GStatus.running, totalTarget := 1, totalRegistered := 0,
       totalFailed := 0, workers := [WPhase.loopTop], sessions := [],
       nextSid := 0 } : BState).taskQueue = [] ∧
    (∀ w, BAct.popTask w ∉ ([BAct.exitLoop 0, BAct.complete] : List BAct)) ∧
    (({ taskQueue := [], shouldStop := true, isRunning := false,
        status := GStatus.idle, totalTarget := 1, totalRegistered := 0,
        totalFailed := 0, workers := [WPhase.done], sessions := [],
        nextSid := 0 } : BState).isRunning = false →
      ({ taskQueue := [], shouldStop := true, isRunning := false,
         status := GStatus.idle, totalTarget := 1, totalRegistered := 0,
         totalFailed := 0, workers := [WPhase.done], sessions := [],
         nextSid := 0 } : BState).status = GStatus.idle) := by
  have h := stopRegistration_guarantees (initBatch 1 1) _ _
    [BAct.exitLoop 0, BAct.complete] rfl (by rfl) (by rfl)
  exact ⟨h.1, h.2.2.1, h.2.2.2⟩

end AWSBuild
